import Mathlib

/-!
Verification of the StaFusion data-fusion engine (`datafusion_ml`):
a shallow embedding of `fusion.py`, `modeling.py`, `config.py` and
`errors.py`, with theorems settling the behavioural claims about
`fuse_datasets`, `detect_problem_type`, `cross_validate_metrics`,
`_coerce_categorical_alignment`, the trainers and `predict`.

Modelling conventions:
* A pandas cell is `Option Val` (`none` = NaN/missing); a column (`Series`)
  carries a name, a dtype tag and its cells; a `DF` is the ordered list of
  its named columns plus its row count (pandas' index length).
* Machine-learning outcomes (fitted random forests, PyCaret experiments,
  metric numbers) are opaque: they are threaded through an explicit
  `Oracle` parameter producing one prediction per row, exactly the shape
  contract of `sklearn`'s `predict`.  All control flow, validation,
  column/row bookkeeping and error behaviour of the repository code is
  embedded concretely.
* Failure is `Except PyErr`.  Python's `ValueError` / `KeyError` /
  `AttributeError` and the repository's `errors.py` classes are distinct
  `PyErr` constructors.
* `config.py` declares no `n_jobs` field on `FusionConfig`, yet
  `modeling.py` reads `config.n_jobs` at lines 102, 108 and 288 and no
  code in the repository ever assigns that attribute: in Python the
  attribute lookup raises `AttributeError`, so `build_sklearn_pipeline`
  (and with it the baseline trainer and the cross-validation evaluator)
  fails on every input.  This repository-level error path is embedded
  concretely.
* Documented raising behaviour of the external backends that the engine
  calls (the `KFold`/`StratifiedKFold` split validation, PyCaret `setup`)
  is embedded where the engine would let it propagate; each such place is
  marked in a comment.
-/

namespace StaFusion

/-- A scalar cell value of a table.  Integer and string values cover every
value the claims exercise; floats never need arithmetic here, so a float
column is distinguished only by its dtype tag. -/
inductive Val where
  | vInt : Int → Val
  | vStr : String → Val
deriving DecidableEq, Repr

/-- Lexicographic comparison of character lists by Unicode code point,
Python's string order. -/
def charsLe : List Char → List Char → Bool
  | [], _ => true
  | _ :: _, [] => false
  | a :: as, b :: bs =>
      if a.toNat < b.toNat then true
      else if b.toNat < a.toNat then false
      else charsLe as bs

/-- Python's `sorted` over column names compares strings code point by
code point. -/
def strLe (a b : String) : Bool := charsLe a.data b.data

/-- Total comparison on cell values, used to model Python's `sorted` on the
(homogeneous) values of one column: integers before strings, each compared
by their own order. -/
def valLe : Val → Val → Bool
  | Val.vInt m, Val.vInt n => m ≤ n
  | Val.vInt _, Val.vStr _ => true
  | Val.vStr _, Val.vInt _ => false
  | Val.vStr s, Val.vStr t => strLe s t

theorem charsLe_total (a b : List Char) : charsLe a b = true ∨ charsLe b a = true := by
  induction a generalizing b with
  | nil => exact Or.inl rfl
  | cons x xs ih =>
      cases b with
      | nil => exact Or.inr rfl
      | cons y ys =>
          by_cases h1 : x.toNat < y.toNat
          · left; simp [charsLe, h1]
          · by_cases h2 : y.toNat < x.toNat
            · right; simp [charsLe, h2]
            · rcases ih ys with h | h
              · left; simp [charsLe, h1, h2, h]
              · right; simp [charsLe, h1, h2, h]

theorem strLe_total (a b : String) : strLe a b = true ∨ strLe b a = true :=
  charsLe_total a.data b.data

theorem valLe_total (a b : Val) : valLe a b = true ∨ valLe b a = true := by
  cases a <;> cases b <;> simp [valLe]
  · exact le_total _ _
  · exact strLe_total _ _

/-- A pandas dtype, as far as the engine inspects it: `pd.api.types.is_float_dtype`,
`is_integer_dtype`, `is_object_dtype`, `is_categorical_dtype`,
`is_numeric_dtype`.  A categorical dtype carries its ordered category list,
as `pd.CategoricalDtype(categories=...)` does. -/
inductive Dtype where
  | float : Dtype
  | int : Dtype
  | obj : Dtype
  | cat : List Val → Dtype
deriving DecidableEq, Repr

/-- `pd.api.types.is_numeric_dtype`. -/
def Dtype.isNumeric : Dtype → Bool
  | Dtype.float => true
  | Dtype.int => true
  | _ => false

/-- `is_object_dtype(s) or is_categorical_dtype(s)`, the test
`_coerce_categorical_alignment` applies to each side of a column. -/
def Dtype.isObjectOrCategorical : Dtype → Bool
  | Dtype.obj => true
  | Dtype.cat _ => true
  | _ => false

/-- A missing cell (`NaN`) is `none`. -/
abbrev Cell := Option Val

/-- A pandas `Series`: its name, dtype and cells. -/
structure Series where
  name : String
  dtype : Dtype
  values : List Cell
deriving DecidableEq, Repr

/-- The non-missing values of a series, in order: `series.dropna()`. -/
def Series.dropnaVals (s : Series) : List Val := s.values.filterMap id

/-- `series.dropna().nunique()`: number of distinct non-missing values. -/
def Series.nuniqueDropna (s : Series) : Nat := s.dropnaVals.dedup.length

/-- `series.dropna().shape[0]`: number of non-missing observations. -/
def Series.nObsDropna (s : Series) : Nat := s.dropnaVals.length

/-- A pandas `DataFrame`: ordered named columns plus the index length.
`nrows` is the length of the index; `DF.WF` below ties it to the columns. -/
structure DF where
  data : List Series
  nrows : Nat
deriving DecidableEq, Repr

/-- `df.columns`, as a list of names. -/
def DF.cols (df : DF) : List String := df.data.map Series.name

/-- Column lookup by name (`df[c]` on the happy path): the first column
with that name, if any. -/
def DF.getSeries? (df : DF) (c : String) : Option Series :=
  df.data.find? (fun s => s.name = c)

/-- Well-formedness: every column has exactly `nrows` cells.  True of every
DataFrame pandas builds; theorems carry it as a hypothesis. -/
def DF.WF (df : DF) : Prop := ∀ s ∈ df.data, s.values.length = df.nrows

instance (df : DF) : Decidable df.WF := by
  unfold DF.WF; infer_instance

/- ===== Problem-type detection (`modeling.detect_problem_type`) ===== -/

/-- `"classification"` / `"regression"` (`modeling.ProblemType`). -/
inductive ProblemType where
  | classification : ProblemType
  | regression : ProblemType
deriving DecidableEq, Repr

/-- Embedding of `modeling.detect_problem_type`.

`int(0.2 * n_obs)` is embedded as `n_obs / 5` (natural floor division):
for every natural `n` in double-exact range the IEEE-754 product
`double(0.2) * n` truncates to `n // 5`, since the relative error of the
product (about `5.6e-17`) is below the half-ulp threshold, so the float
expression never crosses an integer boundary. -/
def detect_problem_type (target_series : Series) : ProblemType :=
  -- Float targets are regression
  if target_series.dtype = Dtype.float then ProblemType.regression
  -- Integer targets: few distinct classes -> classification
  else if target_series.dtype = Dtype.int then
    let n_unique := target_series.nuniqueDropna
    let n_obs := target_series.nObsDropna
    if n_unique ≤ 20 ∧ n_unique ≤ max 2 (n_obs / 5) then ProblemType.classification
    else ProblemType.regression
  -- String/object -> classification
  else ProblemType.classification

/-- The integer rule as the spec sentence words it (claim C2): classification
iff the distinct count is at most 20 **and at most 20% of the non-missing
observation count** — without the `max(2, ·)` floor the code applies.
Written from the spec only, to be compared against `detect_problem_type`. -/
def detectProblemTypeSpecRule (target_series : Series) : ProblemType :=
  if target_series.dtype = Dtype.float then ProblemType.regression
  else if target_series.dtype = Dtype.int then
    let n_unique := target_series.nuniqueDropna
    let n_obs := target_series.nObsDropna
    if n_unique ≤ 20 ∧ 5 * n_unique ≤ n_obs then ProblemType.classification
    else ProblemType.regression
  else ProblemType.classification

/- ===== Sorting (Python `sorted`) ===== -/

/-- Insert into a `le`-sorted list, keeping it sorted. -/
def insertLe {α : Type} (le : α → α → Bool) (a : α) : List α → List α
  | [] => [a]
  | b :: bs => if le a b then a :: b :: bs else b :: insertLe le a bs

/-- Insertion sort by a boolean comparison.  For the total antisymmetric
orders used here (`valLe` on homogeneous values, `≤` on strings) this yields
the same list as Python's `sorted`. -/
def sortLe {α : Type} (le : α → α → Bool) : List α → List α
  | [] => []
  | a :: as => insertLe le a (sortLe le as)

theorem mem_insertLe {α : Type} (le : α → α → Bool) (a x : α) (l : List α) :
    x ∈ insertLe le a l ↔ x = a ∨ x ∈ l := by
  induction l with
  | nil => simp [insertLe]
  | cons b bs ih =>
      by_cases h : le a b = true
      · simp [insertLe, h]
      · simp only [insertLe, h, if_neg, Bool.not_eq_true] at *
        simp [List.mem_cons, ih]
        tauto

theorem mem_sortLe {α : Type} (le : α → α → Bool) (x : α) (l : List α) :
    x ∈ sortLe le l ↔ x ∈ l := by
  induction l with
  | nil => simp [sortLe]
  | cons a as ih => simp [sortLe, mem_insertLe, ih]

theorem sorted_insertLe {α : Type} (le : α → α → Bool)
    (htot : ∀ a b, le a b = true ∨ le b a = true)
    (htrans : ∀ a b c, le a b = true → le b c = true → le a c = true)
    (a : α) (l : List α)
    (hl : l.Sorted (fun x y => le x y = true)) :
    (insertLe le a l).Sorted (fun x y => le x y = true) := by
  induction l with
  | nil => simp [insertLe]
  | cons b bs ih =>
      have hb := List.sorted_cons.mp hl
      by_cases h : le a b = true
      · simp only [insertLe, h, if_pos]
        refine List.sorted_cons.mpr ⟨?_, hl⟩
        intro x hx
        rcases List.mem_cons.mp hx with rfl | hx
        · exact h
        · exact htrans a b x h (hb.1 x hx)
      · simp only [insertLe, h, if_neg, Bool.false_eq_true, not_false_iff]
        refine List.sorted_cons.mpr ⟨?_, ih hb.2⟩
        intro x hx
        rcases (mem_insertLe le a x bs).mp hx with hxa | hx
        · rcases htot a b with h' | h'
          · exact absurd h' h
          · rw [hxa]; exact h'
        · exact hb.1 x hx

theorem sorted_sortLe {α : Type} (le : α → α → Bool)
    (htot : ∀ a b, le a b = true ∨ le b a = true)
    (htrans : ∀ a b c, le a b = true → le b c = true → le a c = true)
    (l : List α) : (sortLe le l).Sorted (fun x y => le x y = true) := by
  induction l with
  | nil => simp [sortLe]
  | cons a as ih => exact sorted_insertLe le htot htrans a _ ih

theorem charsLe_trans (a b c : List Char) :
    charsLe a b = true → charsLe b c = true → charsLe a c = true := by
  induction a generalizing b c with
  | nil => intro _ _; rfl
  | cons x xs ih =>
      cases b with
      | nil => intro h; exact absurd h (by simp [charsLe])
      | cons y ys =>
          cases c with
          | nil => intro _ h; exact absurd h (by simp [charsLe])
          | cons z zs =>
              intro h1 h2
              by_cases hxy : x.toNat < y.toNat <;> by_cases hyx : y.toNat < x.toNat <;>
                by_cases hyz : y.toNat < z.toNat <;> by_cases hzy : z.toNat < y.toNat <;>
                simp [charsLe, hxy, hyx, hyz, hzy] at h1 h2 ⊢ <;>
                first
                  | omega
                  | (first
                      | (have hxz : x.toNat < z.toNat := by omega
                         simp [hxz])
                      | (have hxz : ¬ x.toNat < z.toNat := by omega
                         have hzx : ¬ z.toNat < x.toNat := by omega
                         simp [hxz, hzx]
                         first
                           | exact ih ys zs h1 h2
                           | exact ⟨by omega, ih ys zs h1 h2⟩))

theorem strLe_trans (a b c : String) :
    strLe a b = true → strLe b c = true → strLe a c = true :=
  charsLe_trans a.data b.data c.data

theorem valLe_trans (a b c : Val) :
    valLe a b = true → valLe b c = true → valLe a c = true := by
  cases a <;> cases b <;> cases c <;> simp [valLe, strLe] <;>
    first
      | exact le_trans
      | exact charsLe_trans _ _ _

/- ===== Errors (`errors.py` and the Python built-ins the engine raises) ===== -/

/-- The exception taxonomy relevant to the engine.  `valueError`,
`keyError` and `attributeError` are Python's built-ins; `overlapError`,
`targetsError` and `configurationError` embed the `errors.py` classes
`OverlapError`, `TargetsError`, `ConfigurationError` (subclasses of
`ValueError`).  The engine code under `fusion.py`/`modeling.py` only ever
constructs `valueError`, `keyError` and (through the undeclared
`FusionConfig.n_jobs` attribute read) `attributeError`; the `errors.py`
constructors exist so that theorems can state which exception class a call
raises. -/
inductive PyErr where
  | valueError : String → PyErr
  | keyError : String → PyErr
  | attributeError : String → PyErr
  | overlapError : String → PyErr
  | targetsError : String → PyErr
  | configurationError : String → PyErr
deriving DecidableEq, Repr

/-- Message of `fusion.py` line 89 (empty resolved overlap). -/
def noOverlapMsg : String :=
  "No overlapping features between A and B (after exclusions). Provide overlap_features explicitly or ensure datasets share columns."

/-- Message of `fusion.py` line 97 (both target sets empty). -/
def noTargetsMsg : String :=
  "No exclusive target columns detected in either dataset. Specify targets_from_a/targets_from_b."

/- ===== Configuration (`config.FusionConfig`) ===== -/

/-- `config.FusionConfig`.  `cv_splits`, `n_estimators` and
`max_category_cardinality` are Python ints, embedded as `Int` (the code
never guards against non-positive values). -/
structure FusionConfig where
  prefer_pycaret : Bool := true
  random_state : Int := 42
  cv_splits : Int := 3
  n_estimators : Int := 300
  use_sparse_onehot : Bool := true
  max_category_cardinality : Int := 100
  warn_on_high_cardinality : Bool := true
deriving DecidableEq, Repr

/- ===== DataFrame operations used by the engine ===== -/

/-- The columns named by `names`, in that order; Python's `df[names]`
raises `KeyError` naming a missing column. -/
def DF.selectSeries (df : DF) : List String → Except PyErr (List Series)
  | [] => Except.ok []
  | c :: rest =>
      match df.getSeries? c with
      | none => Except.error (PyErr.keyError c)
      | some s =>
          match df.selectSeries rest with
          | Except.error e => Except.error e
          | Except.ok ss => Except.ok (s :: ss)

/-- `df[names]` (column projection, preserving the index). -/
def DF.select (df : DF) (names : List String) : Except PyErr DF :=
  match df.selectSeries names with
  | Except.error e => Except.error e
  | Except.ok ss => Except.ok ⟨ss, df.nrows⟩

/-- `df[c] = series`: overwrite the column named `c` in place if present
(keeping its position), otherwise append it on the right. -/
def DF.setCol (df : DF) (c : String) (s : Series) : DF :=
  if df.data.any (fun t => t.name = c) then
    ⟨df.data.map (fun t => if t.name = c then s else t), df.nrows⟩
  else
    ⟨df.data ++ [s], df.nrows⟩

/-- `df.reindex(columns=names)`: for each requested name keep the existing
column, or make an all-missing column of the index length.  (pandas gives
the filler column a float dtype; nothing downstream inspects it.) -/
def DF.reindexCols (df : DF) (names : List String) : DF :=
  ⟨names.map (fun c =>
      match df.getSeries? c with
      | some s => s
      | none => ⟨c, Dtype.float, List.replicate df.nrows none⟩),
   df.nrows⟩

/-- `pd.concat([x, y], ignore_index=True)` in the only configuration
`fuse_datasets` uses it: both frames carry the identical column-name list
(each was just reindexed to `all_columns`), so concat stacks each column of
`x` on the column of `y` with the same name.  (The combined dtype tag is
taken from `x`'s column; no claim inspects the fused dtypes.) -/
def concatRowsAligned (x y : DF) : DF :=
  ⟨x.data.map (fun s =>
      ⟨s.name, s.dtype,
       s.values ++
         (match y.getSeries? s.name with
          | some t => t.values
          | none => List.replicate y.nrows none)⟩),
   x.nrows + y.nrows⟩

/-- `series.astype(pd.CategoricalDtype(categories=cats))`: the dtype
becomes categorical with exactly `cats` as its (ordered) category list, and
any value outside `cats` becomes missing. -/
def Series.astypeCat (s : Series) (cats : List Val) : Series :=
  ⟨s.name, Dtype.cat cats,
   s.values.map (fun v =>
      match v with
      | none => none
      | some x => if x ∈ cats then some x else none)⟩

/- ===== Trainers and prediction (`modeling.py`) ===== -/

/-- `TrainedModel.backend`. -/
inductive Backend where
  | sklearn : Backend
  | pycaret : Backend
deriving DecidableEq, Repr

/-- The opaque fitted-model factory.  Given the training features, target
series, problem type and configuration it yields the fitted model's
behaviour: a function from the inference-time feature table to one
prediction per row index.  The engine never inspects predictions, so every
theorem about the engine is quantified over this oracle. -/
abbrev Oracle := DF → Series → ProblemType → FusionConfig → DF → Nat → Cell

/-- `modeling.TrainedModel`: problem type, backend tag, opaque fitted
model, target name, the ordered feature-name tuple recorded at fit time,
and whether `extra` carries the PyCaret experiment handle (`extra` is
`None` for the sklearn backend, `{"experiment": exp}` for PyCaret). -/
structure TrainedModel where
  problem_type : ProblemType
  backend : Backend
  model : DF → Nat → Cell
  target : String
  features : List String
  extraHasExperiment : Bool

/-- The `AttributeError` message for the undeclared `n_jobs` field:
`config.py` declares no `n_jobs` on `FusionConfig` and no code anywhere in
the repository assigns that attribute dynamically, yet `modeling.py` reads
`config.n_jobs` at lines 102, 108 and 288. -/
def nJobsAttributeMsg : String :=
  "FusionConfig object has no attribute n_jobs"

/-- `modeling.build_sklearn_pipeline`: assembles the imputer/one-hot
preprocessing and the random-forest estimator.  Constructing the estimator
evaluates the keyword argument `n_jobs=config.n_jobs` (modeling.py lines
102 and 108 — both the classifier and the regressor branch), but
`FusionConfig` declares no `n_jobs` field and no caller ever sets one, so
the attribute lookup raises `AttributeError` on every call: the pipeline
value (modelled as `Unit`; no claim inspects it) is never produced. -/
def build_sklearn_pipeline (X : DF) (pt : ProblemType) (cfg : FusionConfig) :
    Except PyErr Unit :=
  Except.error (PyErr.attributeError nJobsAttributeMsg)

/-- Message PyCaret's `setup` raises on a target with missing values. -/
def pycaretNanTargetMsg : String := "Target column cannot contain missing values."

/-- The PyCaret trainer's failure surface, modelled coarsely: `setup`
rejects a target containing missing values.  The PyCaret path never reads
`config.n_jobs` (its `setup` call passes only declared fields); its other
failure modes are outside every claim. -/
def pycaretFitError? (y : Series) : Option String :=
  if y.values.any Option.isNone then some pycaretNanTargetMsg else none

/-- `SklearnTrainer.train`: infer the problem type if not given, record
`tuple(X.columns)`, then build the pipeline — which always raises the
`n_jobs` `AttributeError` (see `build_sklearn_pipeline`), so `pipeline.fit`
and its input validation are never reached and the trainer fails on every
input. -/
def SklearnTrainer_train (oracle : Oracle) (cfg : FusionConfig) (X : DF)
    (y : Series) (pt? : Option ProblemType) : Except PyErr TrainedModel :=
  let pt := pt?.getD (detect_problem_type y)
  match build_sklearn_pipeline X pt cfg with
  | Except.error e => Except.error e
  | Except.ok _ =>
      Except.ok ⟨pt, Backend.sklearn, oracle X y pt cfg, y.name, X.cols, false⟩

/-- `PyCaretTrainer.train`: infer the problem type if not given, record
`tuple(X.columns)`, run `setup`/`compare_models`/`finalize_model`
(failures per `pycaretFitError?`), set `backend="pycaret"` and keep the
experiment in `extra`. -/
def PyCaretTrainer_train (oracle : Oracle) (cfg : FusionConfig) (X : DF)
    (y : Series) (pt? : Option ProblemType) : Except PyErr TrainedModel :=
  let pt := pt?.getD (detect_problem_type y)
  match pycaretFitError? y with
  | some msg => Except.error (PyErr.valueError msg)
  | none =>
      Except.ok ⟨pt, Backend.pycaret, oracle X y pt cfg, y.name, X.cols, true⟩

/-- `modeling.get_trainer`: PyCaret when the configuration prefers it and
the package is importable (`pycaretAvailable`), else the sklearn baseline. -/
def get_trainer (cfg : FusionConfig) (pycaretAvailable : Bool) : Backend :=
  if cfg.prefer_pycaret && pycaretAvailable then Backend.pycaret else Backend.sklearn

/-- `modeling.train_model`: dispatch to the selected trainer. -/
def train_model (oracle : Oracle) (pycaretAvailable : Bool) (cfg : FusionConfig)
    (X : DF) (y : Series) (pt? : Option ProblemType) : Except PyErr TrainedModel :=
  match get_trainer cfg pycaretAvailable with
  | Backend.pycaret => PyCaretTrainer_train oracle cfg X y pt?
  | Backend.sklearn => SklearnTrainer_train oracle cfg X y pt?

/-- Messages of `modeling.predict` for a malformed PyCaret model. -/
def missingExtraMsg : String := "PyCaret model missing related dictionary"

/-- `modeling.predict`: first reduce/reorder `X` to the recorded feature
tuple (`X = X[list(model.features)]`, which raises `KeyError` on a missing
feature), then dispatch: a PyCaret model without its experiment handle is a
`ValueError`; otherwise the fitted model produces one prediction per row of
the reduced frame. -/
def predict (m : TrainedModel) (X : DF) : Except PyErr (List Cell) :=
  match X.select m.features with
  | Except.error e => Except.error e
  | Except.ok Xs =>
      if m.backend = Backend.pycaret ∧ ¬ m.extraHasExperiment then
        Except.error (PyErr.valueError missingExtraMsg)
      else
        Except.ok ((List.range Xs.nrows).map (m.model Xs))

/- ===== Cross-validation (`modeling.cross_validate_metrics`) ===== -/

/-- `y.dropna().value_counts()`: count of each distinct non-missing value. -/
def Series.valueCountsDropna (y : Series) : List (Val × Nat) :=
  y.dropnaVals.dedup.map (fun v => (v, y.dropnaVals.count v))

/-- `int(class_counts.min()) if not class_counts.empty else 0`. -/
def Series.minCountPerValue (y : Series) : Nat :=
  match y.valueCountsDropna.map Prod.snd with
  | [] => 0
  | c :: cs => cs.foldl Nat.min c

/-- The limiting factor of the evaluator's fold-count rule: the smallest
per-class count of non-missing values for classification, the non-missing
observation count for regression. -/
def limitingFactor (y : Series) (pt : ProblemType) : Nat :=
  match pt with
  | ProblemType.classification => y.minCountPerValue
  | ProblemType.regression => y.nObsDropna

/-- `splits = min(config.cv_splits, max(2, limiting_factor))` as computed in
`cross_validate_metrics` (both branches share this shape). -/
def chosenSplits (cfg : FusionConfig) (y : Series) (pt : ProblemType) : Int :=
  min cfg.cv_splits (max 2 (limitingFactor y pt : Int))

/-- What `cross_validate_metrics` returns when it does not raise: the empty
metric dict, or the NaN-mean-aggregated scores of a `splits`-fold run.  The
numeric scores come from the opaque learning backend, so the embedding
records the branch taken and the fold count actually used. -/
inductive MetricsOutcome where
  | emptyMap : MetricsOutcome
  | cvRun : Int → MetricsOutcome
deriving DecidableEq, Repr

/-- Message of sklearn's `_BaseKFold.split` when `n_splits > n_samples`. -/
def kfoldTooManySplitsMsg : String :=
  "Cannot have number of splits greater than the number of samples"

/-- Message of sklearn's `StratifiedKFold` when every class has fewer
members than `n_splits`. -/
def stratifiedTooFewMsg : String :=
  "n_splits cannot be greater than the number of members in each class."

/-- Embedding of `modeling.cross_validate_metrics`.  The code first builds
the baseline pipeline (`build_sklearn_pipeline`, modeling.py line 259) —
which raises the `n_jobs` `AttributeError` on every call — and only then
would pick the fold count, return `{}` when it is below 2, and call
sklearn's `cross_validate` with `error_score=NaN` (a call that reads
`config.n_jobs` once more, at line 288).  The branch below the pipeline
construction mirrors modeling.py lines 260-299 (fold choice; empty map
below 2 folds; the escaping `KFold`/`StratifiedKFold` fold-construction
checks: more splits than samples, and — stratified — every class smaller
than the fold count) but is unreachable on this source. -/
def cross_validate_metrics (cfg : FusionConfig) (X : DF) (y : Series)
    (pt : ProblemType) : Except PyErr MetricsOutcome :=
  match build_sklearn_pipeline X pt cfg with
  | Except.error e => Except.error e
  | Except.ok _ =>
      match pt with
      | ProblemType.classification =>
          let splits := chosenSplits cfg y ProblemType.classification
          if splits < 2 then Except.ok MetricsOutcome.emptyMap
          else if (X.nrows : Int) < splits then
            Except.error (PyErr.valueError kfoldTooManySplitsMsg)
          else if y.valueCountsDropna.all (fun p => (p.2 : Int) < splits) then
            Except.error (PyErr.valueError stratifiedTooFewMsg)
          else Except.ok (MetricsOutcome.cvRun splits)
      | ProblemType.regression =>
          let splits := chosenSplits cfg y ProblemType.regression
          if splits < 2 then Except.ok MetricsOutcome.emptyMap
          else if (X.nrows : Int) < splits then
            Except.error (PyErr.valueError kfoldTooManySplitsMsg)
          else Except.ok (MetricsOutcome.cvRun splits)

/- ===== Fusion orchestrator (`fusion.py`) ===== -/

/-- `fusion._infer_overlap_features`:
`sorted((set(df_a.columns) & set(df_b.columns)) - exclude_set)`.
`List.dedup` + sort produces the same sorted duplicate-free list as
sorting the Python set. -/
def infer_overlap_features (df_a df_b : DF) (exclude : List String) : List String :=
  sortLe strLe ((df_a.cols.filter
    (fun c => decide (c ∈ df_b.cols) && !(decide (c ∈ exclude)))).dedup)

/-- `fusion._exclusive_columns`:
`sorted(list(set(df_left.columns) - set(df_right.columns)))`. -/
def exclusive_columns (df_left df_right : DF) : List String :=
  sortLe strLe ((df_left.cols.filter
    (fun c => !(decide (c ∈ df_right.cols)))).dedup)

/-- `fusion._coerce_categorical_alignment`, looping over `columns` in
order on copies of both frames.  For a column that is object- or
categorical-dtyped on either side, both sides are recoded to the shared
category vocabulary `sorted(unique(concat(a[c], b[c]).dropna()))`; other
(numeric) columns are left untouched.  A column absent from a frame would
be a pandas `KeyError`; `fuse_datasets` only ever passes frames that carry
every listed column, so that branch is a no-op fallthrough here (theorems
about this function carry presence hypotheses). -/
def coerce_categorical_alignment (a b : DF) : List String → DF × DF
  | [] => (a, b)
  | c :: rest =>
      match a.getSeries? c, b.getSeries? c with
      | some sa, some sb =>
          if sa.dtype.isObjectOrCategorical || sb.dtype.isObjectOrCategorical then
            let cats := sortLe valLe ((sa.dropnaVals ++ sb.dropnaVals).dedup)
            coerce_categorical_alignment
              (a.setCol c (sa.astypeCat cats)) (b.setCol c (sb.astypeCat cats)) rest
          else
            coerce_categorical_alignment a b rest
      | _, _ => coerce_categorical_alignment a b rest

/-- `fusion.FusionResult`. -/
structure FusionResult where
  fused : DF
  a_enriched : DF
  b_enriched : DF
  models_a_to_b : List (String × TrainedModel)
  models_b_to_a : List (String × TrainedModel)
  metrics_a_to_b : List (String × MetricsOutcome)
  metrics_b_to_a : List (String × MetricsOutcome)

/-- One direction of the per-target loop in `fuse_datasets` (lines 117-144):
for each target `t` of the source side, read `y = df_src[t]` (a `KeyError`
if absent), pick the problem type from the override map or the detector,
train on the source's aligned features, cross-validate on the same data,
predict onto the destination's aligned features, and attach the prediction
column to the accumulating enriched destination frame under `t` (suffixed
`_pred` on a name collision).  Models and metric maps are recorded in
iteration order, as the Python insertion-ordered dicts are.  (The attached
column's dtype tag is the backend-determined prediction dtype, opaque
here.) -/
def runDirection (oracle : Oracle) (pycaretAvailable : Bool) (cfg : FusionConfig)
    (ptm : List (String × ProblemType)) (df_src src_feat dst_feat dst_pred : DF) :
    List String →
      Except PyErr (List (String × TrainedModel) × List (String × MetricsOutcome) × DF)
  | [] => Except.ok ([], [], dst_pred)
  | t :: rest =>
      match df_src.getSeries? t with
      | none => Except.error (PyErr.keyError t)
      | some y =>
          let problem := (ptm.lookup t).getD (detect_problem_type y)
          match train_model oracle pycaretAvailable cfg src_feat y (some problem) with
          | Except.error e => Except.error e
          | Except.ok model =>
              match cross_validate_metrics cfg src_feat y problem with
              | Except.error e => Except.error e
              | Except.ok met =>
                  match predict model dst_feat with
                  | Except.error e => Except.error e
                  | Except.ok preds =>
                      let col_name := if t ∈ dst_pred.cols then t ++ "_pred" else t
                      let dst' := dst_pred.setCol col_name ⟨col_name, Dtype.obj, preds⟩
                      match runDirection oracle pycaretAvailable cfg ptm df_src
                          src_feat dst_feat dst' rest with
                      | Except.error e => Except.error e
                      | Except.ok (ms, mets, dfinal) =>
                          Except.ok ((t, model) :: ms, (t, met) :: mets, dfinal)

/-- Embedding of `fusion.fuse_datasets`.  `pycaretAvailable` is the runtime
fact `is_pycaret_available()`; `oracle` supplies the opaque fitted models.
The cardinality-warning block (lines 104-115) only logs and is omitted; it
changes no state and no result. -/
def fuse_datasets (oracle : Oracle) (pycaretAvailable : Bool)
    (df_a df_b : DF)
    (overlap_features : Option (List String))
    (targets_from_a targets_from_b : Option (List String))
    (problem_type_map : List (String × ProblemType))
    (prefer_pycaret : Bool) (random_state : Int)
    (config : Option FusionConfig) : Except PyErr FusionResult :=
  let cfg := config.getD
    { prefer_pycaret := prefer_pycaret, random_state := random_state }
  let overlap := match overlap_features with
    | none =>
        infer_overlap_features df_a df_b
          ((targets_from_a.getD []) ++ (targets_from_b.getD []))
    | some l => l.filter (fun c => decide (c ∈ df_a.cols) && decide (c ∈ df_b.cols))
  if overlap.length = 0 then Except.error (PyErr.valueError noOverlapMsg)
  else
    let ta := targets_from_a.getD (exclusive_columns df_a df_b)
    let tb := targets_from_b.getD (exclusive_columns df_b df_a)
    if ta.isEmpty && tb.isEmpty then Except.error (PyErr.valueError noTargetsMsg)
    else
      match df_a.select overlap with
      | Except.error e => Except.error e
      | Except.ok aSel =>
          match df_b.select overlap with
          | Except.error e => Except.error e
          | Except.ok bSel =>
              let ab := coerce_categorical_alignment aSel bSel overlap
              match runDirection oracle pycaretAvailable cfg problem_type_map
                  df_a ab.1 ab.2 df_b ta with
              | Except.error e => Except.error e
              | Except.ok (mA, metA, b_pred) =>
                  match runDirection oracle pycaretAvailable cfg problem_type_map
                      df_b ab.2 ab.1 df_a tb with
                  | Except.error e => Except.error e
                  | Except.ok (mB, metB, a_pred) =>
                      let all_columns :=
                        sortLe strLe ((a_pred.cols ++ b_pred.cols).dedup)
                      let fused := concatRowsAligned
                        (a_pred.reindexCols all_columns)
                        (b_pred.reindexCols all_columns)
                      Except.ok ⟨fused, a_pred, b_pred, mA, mB, metA, metB⟩

/- ===== Lemmas: column lookup and selection ===== -/

theorem getSeries?_name {df : DF} {c : String} {s : Series}
    (h : df.getSeries? c = some s) : s.name = c := by
  have := List.find?_some h
  simpa using this

theorem getSeries?_mem {df : DF} {c : String} {s : Series}
    (h : df.getSeries? c = some s) : s ∈ df.data :=
  List.mem_of_find?_eq_some h

theorem getSeries?_eq_none_iff (df : DF) (c : String) :
    df.getSeries? c = none ↔ c ∉ df.cols := by
  simp [DF.getSeries?, List.find?_eq_none, DF.cols]

theorem exists_getSeries?_of_mem_cols {df : DF} {c : String} (h : c ∈ df.cols) :
    ∃ s, df.getSeries? c = some s := by
  cases hg : df.getSeries? c with
  | none => exact absurd ((getSeries?_eq_none_iff df c).mp hg) (by simp [h])
  | some s => exact ⟨s, rfl⟩

theorem selectSeries_ok_iff (df : DF) :
    ∀ (names : List String) (ss : List Series),
      df.selectSeries names = Except.ok ss ↔
        List.Forall₂ (fun c s => df.getSeries? c = some s) names ss := by
  intro names
  induction names with
  | nil =>
      intro ss
      constructor
      · intro h
        cases h
        exact List.Forall₂.nil
      · intro h
        cases h
        rfl
  | cons c rest ih =>
      intro ss
      constructor
      · intro h
        unfold DF.selectSeries at h
        cases hg : df.getSeries? c with
        | none => rw [hg] at h; cases h
        | some s =>
            rw [hg] at h
            cases hr : df.selectSeries rest with
            | error e => rw [hr] at h; cases h
            | ok ss' =>
                rw [hr] at h
                cases h
                exact List.Forall₂.cons hg ((ih ss').mp hr)
      · intro h
        cases h with
        | cons hc htail =>
            unfold DF.selectSeries
            rw [hc, (ih _).mpr htail]

theorem selectSeries_exists_of_subset {df : DF} :
    ∀ {names : List String}, (∀ c ∈ names, c ∈ df.cols) →
      ∃ ss, df.selectSeries names = Except.ok ss := by
  intro names
  induction names with
  | nil => exact fun _ => ⟨[], rfl⟩
  | cons c rest ih =>
      intro h
      obtain ⟨s, hs⟩ := exists_getSeries?_of_mem_cols (h c (List.mem_cons_self c rest))
      obtain ⟨ss, hss⟩ := ih (fun d hd => h d (List.mem_cons_of_mem c hd))
      refine ⟨s :: ss, ?_⟩
      unfold DF.selectSeries
      rw [hs, hss]

theorem select_ok_iff (df : DF) (names : List String) (out : DF) :
    df.select names = Except.ok out ↔
      ∃ ss, List.Forall₂ (fun c s => df.getSeries? c = some s) names ss ∧
        out = ⟨ss, df.nrows⟩ := by
  unfold DF.select
  cases hsel : df.selectSeries names with
  | error e =>
      simp only [Except.error.injEq]
      constructor
      · intro h; cases h
      · rintro ⟨ss, hss, rfl⟩
        rw [(selectSeries_ok_iff df names ss).mpr hss] at hsel
        cases hsel
  | ok ss =>
      have hss := (selectSeries_ok_iff df names ss).mp hsel
      constructor
      · intro h
        cases h
        exact ⟨ss, hss, rfl⟩
      · rintro ⟨ss', hss', rfl⟩
        rw [(selectSeries_ok_iff df names ss').mpr hss'] at hsel
        cases hsel
        rfl

theorem select_exists_of_subset {df : DF} {names : List String}
    (h : ∀ c ∈ names, c ∈ df.cols) :
    ∃ out, df.select names = Except.ok out ∧ out.nrows = df.nrows := by
  obtain ⟨ss, hss⟩ := selectSeries_exists_of_subset h
  exact ⟨⟨ss, df.nrows⟩, by unfold DF.select; rw [hss], rfl⟩

theorem find?_of_forall₂ {df : DF} :
    ∀ {names : List String} {ss : List Series},
      List.Forall₂ (fun c s => df.getSeries? c = some s) names ss →
      ∀ c ∈ names, ss.find? (fun s => s.name = c) = df.getSeries? c := by
  intro names ss h
  induction h with
  | nil => intro c hc; cases hc
  | @cons c0 s0 rest srest hc0 htail ih =>
      intro c hc
      by_cases hname : s0.name = c
      · have hcc0 : c = c0 := hname.symm.trans (getSeries?_name hc0)
        subst hcc0
        simp [List.find?, hname, hc0]
      · have hcrest : c ∈ rest := by
          rcases List.mem_cons.mp hc with h' | h'
          · exact absurd (by rw [getSeries?_name hc0, h']) hname
          · exact h'
        have hdec : decide (s0.name = c) = false := decide_eq_false hname
        simp only [List.find?, hdec]
        exact ih c hcrest

theorem getSeries?_of_select {X X' : DF} {names : List String}
    (h : X.select names = Except.ok X') :
    ∀ c ∈ names, X'.getSeries? c = X.getSeries? c := by
  rcases (select_ok_iff X names X').mp h with ⟨ss, hss, rfl⟩
  intro c hc
  exact find?_of_forall₂ hss c hc

theorem selectSeries_congr {X Y : DF} :
    ∀ {names : List String},
      (∀ c ∈ names, Y.getSeries? c = X.getSeries? c) →
      Y.selectSeries names = X.selectSeries names := by
  intro names
  induction names with
  | nil => intro _; rfl
  | cons c rest ih =>
      intro h
      unfold DF.selectSeries
      rw [h c (List.mem_cons_self c rest), ih (fun d hd => h d (List.mem_cons_of_mem c hd))]

/- ===== Lemmas: well-formedness and shapes of the frame operations ===== -/

theorem WF_select {X X' : DF} {names : List String} (hw : X.WF)
    (h : X.select names = Except.ok X') : X'.WF := by
  rcases (select_ok_iff X names X').mp h with ⟨ss, hss, rfl⟩
  intro s hs
  have hmem : s ∈ X.data := by
    clear h
    induction hss with
    | nil => cases hs
    | cons hc htail ih =>
        rcases List.mem_cons.mp hs with h' | h'
        · rw [h']; exact getSeries?_mem hc
        · exact ih h'
  exact hw s hmem

theorem forall₂_map_name {df : DF} :
    ∀ {names : List String} {ss : List Series},
      List.Forall₂ (fun c s => df.getSeries? c = some s) names ss →
      ss.map Series.name = names := by
  intro names ss h
  induction h with
  | nil => rfl
  | cons hc htail ih => simp [getSeries?_name hc, ih]

theorem select_cols {X X' : DF} {names : List String}
    (h : X.select names = Except.ok X') : X'.cols = names := by
  rcases (select_ok_iff X names X').mp h with ⟨ss, hss, rfl⟩
  exact forall₂_map_name hss

theorem setCol_nrows (df : DF) (c : String) (s : Series) :
    (df.setCol c s).nrows = df.nrows := by
  unfold DF.setCol
  split <;> rfl

theorem WF_setCol {df : DF} {c : String} {s : Series} (hw : df.WF)
    (hs : s.values.length = df.nrows) : (df.setCol c s).WF := by
  unfold DF.setCol
  split
  · intro t ht
    rcases List.mem_map.mp ht with ⟨u, hu, heq⟩
    by_cases hn : u.name = c
    · rw [← heq]; simp [hn, hs]
    · rw [← heq]; simp only [hn, if_false]; exact hw u hu
  · intro t ht
    rcases List.mem_append.mp ht with h' | h'
    · exact hw t h'
    · rw [List.mem_singleton.mp h']; exact hs

theorem setCol_mem_cols (df : DF) (c : String) (s : Series) (d : String)
    (hd : d ∈ df.cols) (hname : s.name = c) : d ∈ (df.setCol c s).cols := by
  unfold DF.setCol
  rcases List.mem_map.mp hd with ⟨u, hu, heq⟩
  split
  · show d ∈ List.map Series.name _
    by_cases hn : u.name = c
    · refine List.mem_map.mpr ⟨s, List.mem_map.mpr ⟨u, hu, by simp [hn]⟩, ?_⟩
      rw [hname, ← heq, hn]
    · exact List.mem_map.mpr ⟨u, List.mem_map.mpr ⟨u, hu, by simp [hn]⟩, heq⟩
  · show d ∈ List.map Series.name (df.data ++ [s])
    rw [List.map_append]
    exact List.mem_append_left _ (List.mem_map.mpr ⟨u, hu, heq⟩)

theorem reindexCols_nrows (df : DF) (names : List String) :
    (df.reindexCols names).nrows = df.nrows := rfl

theorem reindexCols_cols (df : DF) (names : List String) :
    (df.reindexCols names).cols = names := by
  unfold DF.reindexCols DF.cols
  rw [List.map_map]
  have h : ∀ c ∈ names, (Series.name ∘ fun c =>
      match df.getSeries? c with
      | some s => s
      | none => ⟨c, Dtype.float, List.replicate df.nrows none⟩) c = c := by
    intro c _
    cases hg : df.getSeries? c with
    | none => simp [hg]
    | some s => simp [hg, getSeries?_name hg]
  rw [List.map_congr_left h, List.map_id']

theorem WF_reindexCols {df : DF} (hw : df.WF) (names : List String) :
    (df.reindexCols names).WF := by
  intro s hs
  rcases List.mem_map.mp hs with ⟨c, _, heq⟩
  cases hg : df.getSeries? c with
  | none => rw [← heq]; simp [hg, reindexCols_nrows]
  | some t =>
      rw [← heq]
      simp only [hg, reindexCols_nrows]
      exact hw t (getSeries?_mem hg)

/-- The cells `reindex` puts under column `c`: the existing column's cells,
or an all-missing column of the frame's index length. -/
def padColValues (df : DF) (c : String) : List Cell :=
  match df.getSeries? c with
  | some s => s.values
  | none => List.replicate df.nrows none

theorem padColValues_length {df : DF} (hw : df.WF) (c : String) :
    (padColValues df c).length = df.nrows := by
  unfold padColValues
  cases hg : df.getSeries? c with
  | none => simp
  | some s => exact hw s (getSeries?_mem hg)

theorem find?_self_of_mem {names : List String} {c : String} (hc : c ∈ names) :
    names.find? (fun c' => c' = c) = some c := by
  induction names with
  | nil => cases hc
  | cons a as ih =>
      by_cases ha : a = c
      · subst ha; simp [List.find?]
      · have hdec : decide (a = c) = false := decide_eq_false ha
        simp only [List.find?, hdec]
        exact ih (by rcases List.mem_cons.mp hc with h' | h'
                     · exact absurd h'.symm ha
                     · exact h')

theorem getSeries?_reindexCols (df : DF) (names : List String) (c : String)
    (hc : c ∈ names) :
    ∃ d, (df.reindexCols names).getSeries? c = some ⟨c, d, padColValues df c⟩ := by
  have hmain : (df.reindexCols names).getSeries? c =
      some (match df.getSeries? c with
            | some s => s
            | none => ⟨c, Dtype.float, List.replicate df.nrows none⟩) := by
    have h1 : (df.reindexCols names).getSeries? c =
        (names.find? ((fun s : Series => decide (s.name = c)) ∘ (fun c' =>
            match df.getSeries? c' with
            | some s => s
            | none => ⟨c', Dtype.float, List.replicate df.nrows none⟩))).map
          (fun c' =>
            match df.getSeries? c' with
            | some s => s
            | none => ⟨c', Dtype.float, List.replicate df.nrows none⟩) :=
      List.find?_map _ names
    have h2 : ((fun s : Series => decide (s.name = c)) ∘ (fun c' =>
        match df.getSeries? c' with
        | some s => s
        | none => ⟨c', Dtype.float, List.replicate df.nrows none⟩))
        = fun c' : String => decide (c' = c) := by
      funext c'
      simp only [Function.comp_apply]
      cases hg : df.getSeries? c' with
      | none => simp [hg]
      | some s => simp [hg, getSeries?_name hg]
    rw [h1, h2, find?_self_of_mem hc]
    rfl
  cases hg : df.getSeries? c with
  | none =>
      refine ⟨Dtype.float, ?_⟩
      rw [hmain, hg]
      simp [padColValues, hg]
  | some s =>
      refine ⟨s.dtype, ?_⟩
      have hn := getSeries?_name hg
      have hvals : padColValues df c = s.values := by simp [padColValues, hg]
      rw [hmain, hg, hvals, ← hn]

theorem concatRowsAligned_nrows (x y : DF) :
    (concatRowsAligned x y).nrows = x.nrows + y.nrows := rfl

theorem getSeries?_concatRowsAligned (x y : DF) (c : String) :
    (concatRowsAligned x y).getSeries? c =
      (x.getSeries? c).map (fun s =>
        ⟨s.name, s.dtype,
         s.values ++
           (match y.getSeries? s.name with
            | some t => t.values
            | none => List.replicate y.nrows none)⟩) := by
  have h1 : (concatRowsAligned x y).getSeries? c =
      (x.data.find? ((fun s : Series => decide (s.name = c)) ∘ (fun s : Series =>
          (⟨s.name, s.dtype,
            s.values ++
              (match y.getSeries? s.name with
               | some t => t.values
               | none => List.replicate y.nrows none)⟩ : Series)))).map
        (fun s : Series =>
          (⟨s.name, s.dtype,
            s.values ++
              (match y.getSeries? s.name with
               | some t => t.values
               | none => List.replicate y.nrows none)⟩ : Series)) :=
    List.find?_map _ x.data
  have h2 : ((fun s : Series => decide (s.name = c)) ∘ (fun s : Series =>
      (⟨s.name, s.dtype,
        s.values ++
          (match y.getSeries? s.name with
           | some t => t.values
           | none => List.replicate y.nrows none)⟩ : Series)))
      = fun s : Series => decide (s.name = c) := by
    funext s
    rfl
  rw [h1, h2]
  rfl

theorem concatRowsAligned_cols (x y : DF) :
    (concatRowsAligned x y).cols = x.cols := by
  unfold concatRowsAligned DF.cols
  rw [List.map_map]
  rfl

theorem WF_concatRowsAligned {x y : DF} (hx : x.WF) (hy : y.WF) :
    (concatRowsAligned x y).WF := by
  intro s hs
  rcases List.mem_map.mp hs with ⟨u, hu, heq⟩
  rw [← heq]
  show (u.values ++ _).length = (concatRowsAligned x y).nrows
  rw [List.length_append, concatRowsAligned_nrows, hx u hu]
  congr 1
  cases hg : y.getSeries? u.name with
  | none => simp
  | some t => exact hy t (getSeries?_mem hg)

/-- The shape of the fused table `fuse_datasets` assembles from the two
enriched frames: sorted column union, row concatenation A-then-B, missing
columns padded with missing values on the absent side. -/
theorem fusedShape (ap bp : DF) (hwa : ap.WF) (hwb : bp.WF) :
    (concatRowsAligned (ap.reindexCols (sortLe strLe ((ap.cols ++ bp.cols).dedup)))
        (bp.reindexCols (sortLe strLe ((ap.cols ++ bp.cols).dedup)))).nrows
        = ap.nrows + bp.nrows ∧
    (concatRowsAligned (ap.reindexCols (sortLe strLe ((ap.cols ++ bp.cols).dedup)))
        (bp.reindexCols (sortLe strLe ((ap.cols ++ bp.cols).dedup)))).WF ∧
    (concatRowsAligned (ap.reindexCols (sortLe strLe ((ap.cols ++ bp.cols).dedup)))
        (bp.reindexCols (sortLe strLe ((ap.cols ++ bp.cols).dedup)))).cols
        = sortLe strLe ((ap.cols ++ bp.cols).dedup) ∧
    (∀ c, c ∈ sortLe strLe ((ap.cols ++ bp.cols).dedup) ↔ c ∈ ap.cols ∨ c ∈ bp.cols) ∧
    (sortLe strLe ((ap.cols ++ bp.cols).dedup)).Sorted (fun a b => strLe a b = true) ∧
    ∀ c ∈ sortLe strLe ((ap.cols ++ bp.cols).dedup),
      ∃ d, (concatRowsAligned (ap.reindexCols (sortLe strLe ((ap.cols ++ bp.cols).dedup)))
          (bp.reindexCols (sortLe strLe ((ap.cols ++ bp.cols).dedup)))).getSeries? c
        = some ⟨c, d, padColValues ap c ++ padColValues bp c⟩ := by
  set U := sortLe strLe ((ap.cols ++ bp.cols).dedup) with hU
  refine ⟨?_, ?_, ?_, ?_, ?_, ?_⟩
  · rw [concatRowsAligned_nrows, reindexCols_nrows, reindexCols_nrows]
  · exact WF_concatRowsAligned (WF_reindexCols hwa U) (WF_reindexCols hwb U)
  · rw [concatRowsAligned_cols, reindexCols_cols]
  · intro c
    rw [hU, mem_sortLe, List.mem_dedup, List.mem_append]
  · exact sorted_sortLe strLe strLe_total strLe_trans _
  · intro c hc
    obtain ⟨da, hda⟩ := getSeries?_reindexCols ap U c hc
    obtain ⟨db, hdb⟩ := getSeries?_reindexCols bp U c hc
    refine ⟨da, ?_⟩
    have hbuild : (fun s : Series =>
        (⟨s.name, s.dtype, s.values ++
          (match (bp.reindexCols U).getSeries? s.name with
           | some t => t.values
           | none => List.replicate (bp.reindexCols U).nrows none)⟩ : Series))
        (⟨c, da, padColValues ap c⟩ : Series)
        = ⟨c, da, padColValues ap c ++ padColValues bp c⟩ := by
      show (⟨c, da, padColValues ap c ++
          (match (bp.reindexCols U).getSeries? c with
           | some t => t.values
           | none => List.replicate (bp.reindexCols U).nrows none)⟩ : Series) = _
      rw [hdb]
    rw [getSeries?_concatRowsAligned, hda]
    exact congrArg some hbuild

/- ===== Lemmas: overlap and target resolution ===== -/

theorem mem_infer_overlap_features (a b : DF) (excl : List String) (c : String) :
    c ∈ infer_overlap_features a b excl ↔ c ∈ a.cols ∧ c ∈ b.cols ∧ c ∉ excl := by
  unfold infer_overlap_features
  rw [mem_sortLe, List.mem_dedup, List.mem_filter]
  simp

theorem mem_exclusive_columns (l r : DF) (c : String) :
    c ∈ exclusive_columns l r ↔ c ∈ l.cols ∧ c ∉ r.cols := by
  unfold exclusive_columns
  rw [mem_sortLe, List.mem_dedup, List.mem_filter]
  simp

theorem infer_overlap_subset_left (a b : DF) (excl : List String) :
    ∀ c ∈ infer_overlap_features a b excl, c ∈ a.cols :=
  fun c hc => ((mem_infer_overlap_features a b excl c).mp hc).1

theorem infer_overlap_subset_right (a b : DF) (excl : List String) :
    ∀ c ∈ infer_overlap_features a b excl, c ∈ b.cols :=
  fun c hc => ((mem_infer_overlap_features a b excl c).mp hc).2.1

/- ===== Lemmas: prediction ===== -/

theorem predict_ok (m : TrainedModel) (X : DF)
    (hsub : ∀ c ∈ m.features, c ∈ X.cols)
    (hpc : m.backend = Backend.pycaret → m.extraHasExperiment = true) :
    ∃ ps, predict m X = Except.ok ps ∧ ps.length = X.nrows := by
  obtain ⟨out, hout, hn⟩ := select_exists_of_subset hsub
  unfold predict
  rw [hout]
  have hcond : ¬ (m.backend = Backend.pycaret ∧ ¬ m.extraHasExperiment) := by
    rintro ⟨h1, h2⟩
    exact h2 (by simp [hpc h1])
  refine ⟨(List.range out.nrows).map (m.model out), ?_, by simp [hn]⟩
  exact if_neg hcond

/- ===== Lemmas: `setCol` and the categorical aligner ===== -/

theorem find?_map_replace (c d : String) (s : Series) (hne : d ≠ c)
    (hs : s.name = c) :
    ∀ l : List Series,
      (l.map (fun t => if t.name = c then s else t)).find?
          (fun u => u.name = d)
        = l.find? (fun u => u.name = d) := by
  intro l
  induction l with
  | nil => rfl
  | cons u us ih =>
      by_cases hu : u.name = c
      · have h1 : decide (s.name = d) = false := by
          rw [decide_eq_false_iff_not, hs]
          exact fun h => hne h.symm
        have h2 : decide (u.name = d) = false := by
          rw [decide_eq_false_iff_not, hu]
          exact fun h => hne h.symm
        rw [List.map_cons, if_pos hu]
        simp only [List.find?, h1, h2]
        exact ih
      · rw [List.map_cons, if_neg hu]
        cases hd : decide (u.name = d) with
        | true => simp only [List.find?, hd]
        | false =>
            simp only [List.find?, hd]
            exact ih

theorem getSeries?_setCol_ne {df : DF} {c d : String} {s : Series}
    (hne : d ≠ c) (hs : s.name = c) :
    (df.setCol c s).getSeries? d = df.getSeries? d := by
  unfold DF.setCol DF.getSeries?
  split
  · exact find?_map_replace c d s hne hs df.data
  · rw [List.find?_append]
    have h1 : List.find? (fun u : Series => u.name = d) [s] = none := by
      have hdec : decide (s.name = d) = false := by
        rw [decide_eq_false_iff_not, hs]
        exact fun h => hne h.symm
      simp [List.find?, hdec]
    rw [h1, Option.or_none]

theorem getSeries?_setCol_self {df : DF} {c : String} {s : Series}
    (hs : s.name = c) :
    (df.setCol c s).getSeries? c = some s := by
  unfold DF.setCol DF.getSeries?
  split
  · rename_i hany
    have hrepl : ∀ l : List Series, l.any (fun t => t.name = c) = true →
        (l.map (fun t => if t.name = c then s else t)).find?
          (fun u => u.name = c) = some s := by
      intro l
      induction l with
      | nil => intro h; cases h
      | cons u us ih =>
          intro h
          by_cases hu : u.name = c
          · rw [List.map_cons, if_pos hu]
            have hdec : decide (s.name = c) = true := decide_eq_true hs
            simp only [List.find?, hdec]
          · rw [List.map_cons, if_neg hu]
            have hdec : decide (u.name = c) = false := decide_eq_false hu
            simp only [List.find?, hdec]
            apply ih
            simpa [List.any_cons, hu] using h
    exact hrepl df.data hany
  · rename_i hany
    rw [List.find?_append]
    have h0 : List.find? (fun u : Series => u.name = c) df.data = none := by
      rw [List.find?_eq_none]
      intro x hx hpx
      exact hany (List.any_eq_true.mpr ⟨x, hx, hpx⟩)
    rw [h0]
    simp [List.find?, decide_eq_true hs]

theorem setCol_cols_of_mem {df : DF} {c : String} {s : Series}
    (hs : s.name = c) (hc : c ∈ df.cols) : (df.setCol c s).cols = df.cols := by
  unfold DF.setCol
  have hany : df.data.any (fun t => t.name = c) = true := by
    rcases List.mem_map.mp hc with ⟨u, hu, heq⟩
    exact List.any_eq_true.mpr ⟨u, hu, decide_eq_true heq⟩
  rw [if_pos hany]
  show List.map Series.name (List.map _ df.data) = _
  rw [List.map_map]
  apply List.map_congr_left
  intro t ht
  by_cases hn : t.name = c
  · simp only [Function.comp_apply]
    rw [if_pos hn, hs, hn]
  · simp only [Function.comp_apply]
    rw [if_neg hn]

theorem astypeCat_name (s : Series) (cats : List Val) :
    (s.astypeCat cats).name = s.name := rfl

theorem astypeCat_length (s : Series) (cats : List Val) :
    (s.astypeCat cats).values.length = s.values.length := by
  simp [Series.astypeCat]

theorem mem_dropnaVals (s : Series) (v : Val) :
    v ∈ s.dropnaVals ↔ some v ∈ s.values := by
  simp [Series.dropnaVals, List.mem_filterMap]

theorem astypeCat_values_id {s : Series} {cats : List Val}
    (h : ∀ v, some v ∈ s.values → v ∈ cats) :
    (s.astypeCat cats).values = s.values := by
  unfold Series.astypeCat
  have hpt : ∀ x ∈ s.values,
      (fun v : Cell => match v with
       | none => none
       | some x => if x ∈ cats then some x else none) x = x := by
    intro x hx
    cases x with
    | none => rfl
    | some v => simp [h v hx]
  show s.values.map _ = s.values
  rw [List.map_congr_left hpt, List.map_id']

/-- Shorthand for the shared category vocabulary the aligner computes for
one column: `sorted(unique(concat(a[c], b[c]).dropna()))`. -/
def sharedCats (sa sb : Series) : List Val :=
  sortLe valLe ((sa.dropnaVals ++ sb.dropnaVals).dedup)

theorem coerce_cons_cat {a b : DF} {c : String} {rest : List String} {sa sb : Series}
    (hga : a.getSeries? c = some sa) (hgb : b.getSeries? c = some sb)
    (hdt : (sa.dtype.isObjectOrCategorical || sb.dtype.isObjectOrCategorical) = true) :
    coerce_categorical_alignment a b (c :: rest) =
      coerce_categorical_alignment
        (a.setCol c (sa.astypeCat (sharedCats sa sb)))
        (b.setCol c (sb.astypeCat (sharedCats sa sb))) rest := by
  unfold sharedCats
  simp only [coerce_categorical_alignment, hga, hgb, hdt, if_true]

theorem coerce_cons_numeric {a b : DF} {c : String} {rest : List String} {sa sb : Series}
    (hga : a.getSeries? c = some sa) (hgb : b.getSeries? c = some sb)
    (hdt : (sa.dtype.isObjectOrCategorical || sb.dtype.isObjectOrCategorical) = false) :
    coerce_categorical_alignment a b (c :: rest) =
      coerce_categorical_alignment a b rest := by
  simp only [coerce_categorical_alignment, hga, hgb, hdt, Bool.false_eq_true,
    if_false]

theorem coerce_cons_missing {a b : DF} {c : String} {rest : List String}
    (h : a.getSeries? c = none ∨ b.getSeries? c = none) :
    coerce_categorical_alignment a b (c :: rest) =
      coerce_categorical_alignment a b rest := by
  rcases h with h | h
  · cases hgb : b.getSeries? c <;> simp only [coerce_categorical_alignment, h, hgb]
  · cases hga : a.getSeries? c <;> simp only [coerce_categorical_alignment, hga, h]

theorem mem_cols_of_getSeries? {df : DF} {c : String} {s : Series}
    (h : df.getSeries? c = some s) : c ∈ df.cols :=
  List.mem_map.mpr ⟨s, getSeries?_mem h, getSeries?_name h⟩

theorem coerce_nrows_cols : ∀ (cs : List String) (a b : DF),
    (coerce_categorical_alignment a b cs).1.nrows = a.nrows ∧
    (coerce_categorical_alignment a b cs).2.nrows = b.nrows ∧
    (coerce_categorical_alignment a b cs).1.cols = a.cols ∧
    (coerce_categorical_alignment a b cs).2.cols = b.cols := by
  intro cs
  induction cs with
  | nil => intro a b; exact ⟨rfl, rfl, rfl, rfl⟩
  | cons c rest ih =>
      intro a b
      cases hga : a.getSeries? c with
      | none => rw [coerce_cons_missing (Or.inl hga)]; exact ih a b
      | some sa =>
          cases hgb : b.getSeries? c with
          | none => rw [coerce_cons_missing (Or.inr hgb)]; exact ih a b
          | some sb =>
              cases hdt : (sa.dtype.isObjectOrCategorical ||
                  sb.dtype.isObjectOrCategorical) with
              | false => rw [coerce_cons_numeric hga hgb hdt]; exact ih a b
              | true =>
                  rw [coerce_cons_cat hga hgb hdt]
                  have hna : (sa.astypeCat (sharedCats sa sb)).name = c := by
                    rw [astypeCat_name]; exact getSeries?_name hga
                  have hnb : (sb.astypeCat (sharedCats sa sb)).name = c := by
                    rw [astypeCat_name]; exact getSeries?_name hgb
                  obtain ⟨h1, h2, h3, h4⟩ :=
                    ih (a.setCol c (sa.astypeCat (sharedCats sa sb)))
                      (b.setCol c (sb.astypeCat (sharedCats sa sb)))
                  refine ⟨?_, ?_, ?_, ?_⟩
                  · rw [h1, setCol_nrows]
                  · rw [h2, setCol_nrows]
                  · rw [h3, setCol_cols_of_mem hna (mem_cols_of_getSeries? hga)]
                  · rw [h4, setCol_cols_of_mem hnb (mem_cols_of_getSeries? hgb)]

theorem coerce_WF : ∀ (cs : List String) (a b : DF), a.WF → b.WF →
    (coerce_categorical_alignment a b cs).1.WF ∧
    (coerce_categorical_alignment a b cs).2.WF := by
  intro cs
  induction cs with
  | nil => intro a b hwa hwb; exact ⟨hwa, hwb⟩
  | cons c rest ih =>
      intro a b hwa hwb
      cases hga : a.getSeries? c with
      | none => rw [coerce_cons_missing (Or.inl hga)]; exact ih a b hwa hwb
      | some sa =>
          cases hgb : b.getSeries? c with
          | none => rw [coerce_cons_missing (Or.inr hgb)]; exact ih a b hwa hwb
          | some sb =>
              cases hdt : (sa.dtype.isObjectOrCategorical ||
                  sb.dtype.isObjectOrCategorical) with
              | false => rw [coerce_cons_numeric hga hgb hdt]; exact ih a b hwa hwb
              | true =>
                  rw [coerce_cons_cat hga hgb hdt]
                  refine ih _ _ ?_ ?_
                  · exact WF_setCol hwa
                      (by rw [astypeCat_length]; exact hwa sa (getSeries?_mem hga))
                  · exact WF_setCol hwb
                      (by rw [astypeCat_length]; exact hwb sb (getSeries?_mem hgb))

theorem coerce_getSeries?_not_mem : ∀ (cs : List String) (a b : DF) (c : String),
    c ∉ cs →
    (coerce_categorical_alignment a b cs).1.getSeries? c = a.getSeries? c ∧
    (coerce_categorical_alignment a b cs).2.getSeries? c = b.getSeries? c := by
  intro cs
  induction cs with
  | nil => intro a b c _; exact ⟨rfl, rfl⟩
  | cons d rest ih =>
      intro a b c hc
      have hcd : c ≠ d := fun h => hc (h ▸ List.mem_cons_self d rest)
      have hcrest : c ∉ rest := fun h => hc (List.mem_cons_of_mem d h)
      cases hga : a.getSeries? d with
      | none => rw [coerce_cons_missing (Or.inl hga)]; exact ih a b c hcrest
      | some sa =>
          cases hgb : b.getSeries? d with
          | none => rw [coerce_cons_missing (Or.inr hgb)]; exact ih a b c hcrest
          | some sb =>
              cases hdt : (sa.dtype.isObjectOrCategorical ||
                  sb.dtype.isObjectOrCategorical) with
              | false => rw [coerce_cons_numeric hga hgb hdt]; exact ih a b c hcrest
              | true =>
                  rw [coerce_cons_cat hga hgb hdt]
                  obtain ⟨h1, h2⟩ := ih
                    (a.setCol d (sa.astypeCat (sharedCats sa sb)))
                    (b.setCol d (sb.astypeCat (sharedCats sa sb))) c hcrest
                  constructor
                  · rw [h1, getSeries?_setCol_ne hcd
                      (by rw [astypeCat_name]; exact getSeries?_name hga)]
                  · rw [h2, getSeries?_setCol_ne hcd
                      (by rw [astypeCat_name]; exact getSeries?_name hgb)]

theorem coerce_append : ∀ (l1 l2 : List String) (a b : DF),
    coerce_categorical_alignment a b (l1 ++ l2) =
      coerce_categorical_alignment (coerce_categorical_alignment a b l1).1
        (coerce_categorical_alignment a b l1).2 l2 := by
  intro l1
  induction l1 with
  | nil => intro l2 a b; rfl
  | cons c rest ih =>
      intro l2 a b
      rw [List.cons_append]
      cases hga : a.getSeries? c with
      | none =>
          rw [coerce_cons_missing (Or.inl hga), coerce_cons_missing (Or.inl hga)]
          exact ih l2 a b
      | some sa =>
          cases hgb : b.getSeries? c with
          | none =>
              rw [coerce_cons_missing (Or.inr hgb), coerce_cons_missing (Or.inr hgb)]
              exact ih l2 a b
          | some sb =>
              cases hdt : (sa.dtype.isObjectOrCategorical ||
                  sb.dtype.isObjectOrCategorical) with
              | false =>
                  rw [coerce_cons_numeric hga hgb hdt, coerce_cons_numeric hga hgb hdt]
                  exact ih l2 a b
              | true =>
                  rw [coerce_cons_cat hga hgb hdt, coerce_cons_cat hga hgb hdt]
                  exact ih l2 _ _

/- ===== Claim theorems ===== -/

/-- A trivial fitted-model oracle (every prediction missing), used to
instantiate theorems over the opaque learning backend at concrete inputs. -/
def trivialOracle : Oracle := fun _ _ _ _ _ _ => none

/-- An integer target with 2 distinct values among 5 non-missing
observations: the detector's `max(2, int(0.2*n))` floor accepts it as
classification, while the spec sentence's bare 20%-bound would demand
regression. -/
def c2Series : Series :=
  ⟨"t", Dtype.int,
   [some (Val.vInt 1), some (Val.vInt 2), some (Val.vInt 1),
    some (Val.vInt 2), some (Val.vInt 1)]⟩

/-- C2 counterexample: on an integer column with 2 distinct values out of 5
non-missing observations, `detect_problem_type` returns classification
(because of the `max(2, int(0.2*n_obs))` floor), while the claim's rule
"distinct count ≤ 20% of the observation count" would return regression.
The claim's iff is therefore false on the code. -/
theorem C2_counterexample :
    detect_problem_type c2Series = ProblemType.classification ∧
    detectProblemTypeSpecRule c2Series = ProblemType.regression ∧
    c2Series.nuniqueDropna = 2 ∧ c2Series.nObsDropna = 5 := by
  refine ⟨?_, ?_, ?_, ?_⟩ <;> decide

/-- C2 (amended): `detect_problem_type` returns regression on float-dtyped
columns; on integer-dtyped columns it returns classification **iff** the
distinct non-missing count is at most 20 and at most
`max(2, int(0.2 * n_obs))` (the code's floor of 2, which the original claim
omitted); on every other dtype it returns classification.  The function is
total — there is no error path. -/
theorem C2_detect_problem_type (y : Series) :
    (y.dtype = Dtype.float → detect_problem_type y = ProblemType.regression) ∧
    (y.dtype = Dtype.int →
      (detect_problem_type y = ProblemType.classification ↔
        y.nuniqueDropna ≤ 20 ∧ y.nuniqueDropna ≤ max 2 (y.nObsDropna / 5))) ∧
    (y.dtype ≠ Dtype.float → y.dtype ≠ Dtype.int →
      detect_problem_type y = ProblemType.classification) := by
  refine ⟨?_, ?_, ?_⟩
  · intro h
    unfold detect_problem_type
    rw [if_pos h]
  · intro h
    unfold detect_problem_type
    rw [if_neg (by rw [h]; intro hx; cases hx), if_pos h]
    by_cases hcond : y.nuniqueDropna ≤ 20 ∧ y.nuniqueDropna ≤ max 2 (y.nObsDropna / 5)
    · rw [if_pos hcond]
      exact iff_of_true rfl hcond
    · rw [if_neg hcond]
      constructor
      · intro hx; cases hx
      · intro hx; exact absurd hx hcond
  · intro h1 h2
    unfold detect_problem_type
    rw [if_neg h1, if_neg h2]

/-- Witness for C2: the three dtype branches at concrete columns. -/
theorem C2_detect_problem_type_witness :
    detect_problem_type ⟨"f", Dtype.float, [some (Val.vInt 0)]⟩
        = ProblemType.regression ∧
    detect_problem_type ⟨"i", Dtype.int, [some (Val.vInt 0), some (Val.vInt 1)]⟩
        = ProblemType.classification ∧
    detect_problem_type ⟨"s", Dtype.obj, [some (Val.vStr "a")]⟩
        = ProblemType.classification :=
  ⟨(C2_detect_problem_type _).1 rfl,
   ((C2_detect_problem_type _).2.1 rfl).mpr (by decide),
   (C2_detect_problem_type _).2.2 (by decide) (by decide)⟩

/-- C4: the claim says malformed targets make the trainers raise domain
errors (`ValueError`s) during fitting, but the sklearn baseline trainer
never gets that far: building its pipeline evaluates the undeclared
attribute `config.n_jobs` (modeling.py lines 102/108 against the
`FusionConfig` of config.py, which has no such field), so
`SklearnTrainer.train` fails with that `AttributeError` on **every** input
— well-formed or not — before any fit or input validation, and an
`AttributeError` is not a `ValueError`. -/
theorem C4_sklearn_train_raises_AttributeError (oracle : Oracle)
    (cfg : FusionConfig) (X : DF) (y : Series) (pt? : Option ProblemType) :
    SklearnTrainer_train oracle cfg X y pt?
        = Except.error (PyErr.attributeError nJobsAttributeMsg) ∧
    ∀ msg, PyErr.attributeError nJobsAttributeMsg ≠ PyErr.valueError msg :=
  ⟨rfl, fun msg h => PyErr.noConfusion h⟩

/-- C5: the claim describes the fold-count rule and the empty-map fallback
of `cross_validate_metrics`, but the function constructs the sklearn
pipeline (modeling.py line 259) **before** any fold selection, and that
construction reads the undeclared `config.n_jobs` — so on every input the
call raises `AttributeError` and neither the fold-count rule nor the
empty-map branch is ever reached. -/
theorem C5_cvm_raises_AttributeError (cfg : FusionConfig) (X : DF) (y : Series)
    (pt : ProblemType) :
    cross_validate_metrics cfg X y pt
      = Except.error (PyErr.attributeError nJobsAttributeMsg) :=
  rfl

/-- C10: the claim says the empty-metric-map branch is taken exactly when
`cv_splits ≤ 1`.  The arithmetic half is as claimed — the fold count
`min(cv_splits, max(2, L))` has `max(2, L) ≥ 2`, so it is below 2 iff
`cv_splits ≤ 1` — but the branch itself is dead code: the pipeline
construction before it always raises the `n_jobs` `AttributeError`, so
`cross_validate_metrics` never returns the empty map for **any**
configuration, including `cv_splits ≤ 1`. -/
theorem C10_empty_map_branch_unreachable :
    (∀ (y : Series) (pt : ProblemType),
      (2 : Int) ≤ max 2 (limitingFactor y pt : Int)) ∧
    ∀ (cfg : FusionConfig) (X : DF) (y : Series) (pt : ProblemType),
      cross_validate_metrics cfg X y pt ≠ Except.ok MetricsOutcome.emptyMap := by
  refine ⟨fun y pt => le_max_left _ _, fun cfg X y pt h => ?_⟩
  have heq : cross_validate_metrics cfg X y pt
      = Except.error (PyErr.attributeError nJobsAttributeMsg) := rfl
  rw [heq] at h
  exact Except.noConfusion h

/-- C7: `predict` first reduces/reorders its input to the model's recorded
feature tuple, so its outcome depends only on the columns named in
`m.features` (in that recorded order): it equals `predict` of the reduced
frame, and any frame that agrees with `X` on those columns (and has the
same row count) — e.g. `X` with extra columns, or with its columns
permuted — yields the same outcome. -/
theorem C7_predict_uses_recorded_features (m : TrainedModel) (X Y : DF)
    (hsub : ∀ c ∈ m.features, c ∈ X.cols)
    (hagree : ∀ c ∈ m.features, Y.getSeries? c = X.getSeries? c)
    (hnr : Y.nrows = X.nrows) :
    (∃ Xf, X.select m.features = Except.ok Xf ∧ predict m X = predict m Xf) ∧
    predict m Y = predict m X := by
  obtain ⟨Xf, hXf, hXfn⟩ := select_exists_of_subset hsub
  have hYsel : Y.select m.features = X.select m.features := by
    unfold DF.select
    rw [selectSeries_congr hagree, hnr]
  have hXfsel : Xf.select m.features = X.select m.features := by
    unfold DF.select
    rw [selectSeries_congr (getSeries?_of_select hXf), hXfn]
  refine ⟨⟨Xf, hXf, ?_⟩, ?_⟩
  · unfold predict
    rw [hXfsel, hXf]
  · unfold predict
    rw [hYsel]

/-- Concrete model, frame, and column-permuted frame for the C7 witness. -/
def c7Model : TrainedModel :=
  ⟨ProblemType.classification, Backend.sklearn, fun _ _ => none, "t", ["a"], false⟩

def c7X : DF :=
  ⟨[⟨"a", Dtype.int, [some (Val.vInt 1)]⟩, ⟨"b", Dtype.int, [some (Val.vInt 2)]⟩], 1⟩

def c7Y : DF :=
  ⟨[⟨"b", Dtype.int, [some (Val.vInt 2)]⟩, ⟨"a", Dtype.int, [some (Val.vInt 1)]⟩], 1⟩

/-- Witness for C7: permuting the columns of a two-column frame leaves the
prediction of a model trained on feature tuple `("a",)` unchanged. -/
theorem C7_predict_uses_recorded_features_witness :
    (∃ Xf, c7X.select c7Model.features = Except.ok Xf ∧
      predict c7Model c7X = predict c7Model Xf) ∧
    predict c7Model c7Y = predict c7Model c7X :=
  C7_predict_uses_recorded_features c7Model c7X c7Y (by decide) (by decide) rfl

/-- Dataset A of the no-shared-columns scenario (columns `a`, `y`). -/
def c3A : DF :=
  ⟨[⟨"a", Dtype.int, [some (Val.vInt 1), some (Val.vInt 2), some (Val.vInt 3)]⟩,
    ⟨"y", Dtype.int, [some (Val.vInt 0), some (Val.vInt 1), some (Val.vInt 0)]⟩], 3⟩

/-- Dataset B of the no-shared-columns scenario (columns `b`, `x`). -/
def c3B : DF :=
  ⟨[⟨"b", Dtype.int, [some (Val.vInt 1), some (Val.vInt 2), some (Val.vInt 3)]⟩,
    ⟨"x", Dtype.float, [some (Val.vInt 0), some (Val.vInt 0), some (Val.vInt 0)]⟩], 3⟩

/-- C3 failing input: with no shared column names the overlap resolves
empty and `fuse_datasets` raises — but with the plain generic
`ValueError` of `fusion.py` line 89, not the `OverlapError` class that
`errors.py` documents as "raised when no valid overlapping features can be
determined" and that `api.py` and the web error handlers catch.  The error
is raised for every oracle and backend availability, i.e. before any model
training, and the (pure) embedding touches neither input. -/
theorem C3_overlap_raises_plain_ValueError :
    (∀ (oracle : Oracle) (avail : Bool),
      fuse_datasets oracle avail c3A c3B none none none [] true 42 none
        = Except.error (PyErr.valueError noOverlapMsg)) ∧
    ∀ msg, PyErr.valueError noOverlapMsg ≠ PyErr.overlapError msg := by
  constructor
  · intro oracle avail
    rfl
  · intro msg h
    cases h

/-- Dataset with the single column `x` (both sides of the C8 scenario). -/
def c8A : DF := ⟨[⟨"x", Dtype.int, [some (Val.vInt 1), some (Val.vInt 2)]⟩], 2⟩

def c8B : DF := ⟨[⟨"x", Dtype.int, [some (Val.vInt 3), some (Val.vInt 4)]⟩], 2⟩

/-- C8 failing input: with identical column sets and no explicit targets,
both target sets resolve empty and `fuse_datasets` raises before alignment
or training — but with the plain generic `ValueError` of `fusion.py` line
97, not the `TargetsError` class of `errors.py` that the claim names.  The
error is independent of the oracle and backend availability. -/
theorem C8_targets_raises_plain_ValueError :
    (∀ (oracle : Oracle) (avail : Bool),
      fuse_datasets oracle avail c8A c8B none none none [] true 42 none
        = Except.error (PyErr.valueError noTargetsMsg)) ∧
    ∀ msg, PyErr.valueError noTargetsMsg ≠ PyErr.targetsError msg := by
  constructor
  · intro oracle avail
    rfl
  · intro msg h
    cases h

/-- Two-row dataset A of the C9 counterexample: shared column `s` and an
exclusive column `x`, so the A-side target list is inferred non-empty. -/
def c9cA : DF :=
  ⟨[⟨"s", Dtype.int, [some (Val.vInt 1), some (Val.vInt 2)]⟩,
    ⟨"x", Dtype.int, [some (Val.vInt 0), some (Val.vInt 1)]⟩], 2⟩

/-- Two-row dataset B of the C9 counterexample: only the shared column `s`. -/
def c9cB : DF := ⟨[⟨"s", Dtype.int, [some (Val.vInt 3), some (Val.vInt 4)]⟩], 2⟩

/-- C9 counterexample: a bogus explicit B-side target `"ghost"` (no column
of B) together with a non-empty inferred A-side target list.  The claimed
unhandled `KeyError` naming `"ghost"` never happens: the A-direction loop
runs first, its (existing) target `x` is trained on the sklearn baseline,
and that training dies with the `n_jobs` `AttributeError` before the
B-direction loop ever reads `df_b["ghost"]`. -/
theorem C9_counterexample :
    "ghost" ∉ c9cB.cols ∧
    fuse_datasets trivialOracle false c9cA c9cB none none (some ["ghost"]) []
        true 42 none = Except.error (PyErr.attributeError nJobsAttributeMsg) ∧
    ∀ c, PyErr.attributeError nJobsAttributeMsg ≠ PyErr.keyError c :=
  ⟨by decide, by rfl, fun c h => PyErr.noConfusion h⟩

/-- C9 (amended): `fuse_datasets` performs no eager validation of explicit
target names — the validation phase only checks that not both target lists
are empty — but a bogus name ends in the claimed unhandled column-lookup
`KeyError` only when that lookup is the **first** per-target step reached:
(a) when it heads the explicit A-side list (the A-direction loop runs
first, `df_a[t]` is read before any training), or (b) when the explicit
A-side list is empty and it heads the B-side list.  In every other
position a preceding target is trained first — and on this source that
training (or its cross-validation) fails with the `n_jobs`
`AttributeError` before the lookup, as the counterexample shows.  In both
covered cases the result is independent of the oracle, so no model
training caused the failure. -/
theorem C9_first_reached_lookup_error (oracle : Oracle) (avail : Bool)
    (df_a df_b : DF) (t : String) (rest : List String)
    (ptm : List (String × ProblemType)) (prefer : Bool) (rs : Int)
    (cfg? : Option FusionConfig) :
    (∀ tb : Option (List String),
      infer_overlap_features df_a df_b ((t :: rest) ++ tb.getD []) ≠ [] →
      t ∉ df_a.cols →
      fuse_datasets oracle avail df_a df_b none (some (t :: rest)) tb ptm prefer
        rs cfg? = Except.error (PyErr.keyError t)) ∧
    (infer_overlap_features df_a df_b (t :: rest) ≠ [] →
      t ∉ df_b.cols →
      fuse_datasets oracle avail df_a df_b none (some []) (some (t :: rest)) ptm
        prefer rs cfg? = Except.error (PyErr.keyError t)) := by
  constructor
  · intro tb hover ht
    have hyt : df_a.getSeries? t = none := (getSeries?_eq_none_iff df_a t).mpr ht
    obtain ⟨aSel, hselA, _⟩ := select_exists_of_subset
      (fun c hc => infer_overlap_subset_left df_a df_b ((t :: rest) ++ tb.getD []) c hc)
    obtain ⟨bSel, hselB, _⟩ := select_exists_of_subset
      (fun c hc => infer_overlap_subset_right df_a df_b ((t :: rest) ++ tb.getD []) c hc)
    have hlen : (List.length (infer_overlap_features df_a df_b
        ((t :: rest) ++ tb.getD [])) = 0) = False :=
      eq_false (fun h => hover (List.length_eq_zero.mp h))
    have hrd : ∀ (F G dstp : DF),
        runDirection oracle avail
            (cfg?.getD { prefer_pycaret := prefer, random_state := rs }) ptm df_a
            F G dstp (t :: rest)
          = Except.error (PyErr.keyError t) := by
      intro F G dstp
      simp only [runDirection, hyt]
    unfold fuse_datasets
    simp only [Option.getD_some, List.isEmpty_cons, Bool.false_and,
      Bool.false_eq_true, if_false, hlen, hselA, hselB, hrd]
  · intro hover ht
    have hyt : df_b.getSeries? t = none := (getSeries?_eq_none_iff df_b t).mpr ht
    obtain ⟨aSel, hselA, _⟩ := select_exists_of_subset
      (fun c hc => infer_overlap_subset_left df_a df_b (t :: rest) c hc)
    obtain ⟨bSel, hselB, _⟩ := select_exists_of_subset
      (fun c hc => infer_overlap_subset_right df_a df_b (t :: rest) c hc)
    have hlen : (List.length (infer_overlap_features df_a df_b (t :: rest)) = 0)
        = False :=
      eq_false (fun h => hover (List.length_eq_zero.mp h))
    unfold fuse_datasets
    simp only [Option.getD_some, List.nil_append, List.isEmpty_nil,
      List.isEmpty_cons, Bool.true_and, Bool.false_eq_true, if_false, hlen,
      hselA, hselB, runDirection, hyt]

/-- Witness for the amended C9: the bogus target `"ghost"` heading the
A-side list, and heading the B-side list with an explicitly empty A-side
list, both end in `KeyError("ghost")`. -/
theorem C9_first_reached_lookup_error_witness :
    fuse_datasets trivialOracle false c8A c8B none (some ["ghost"]) none [] true
        42 none = Except.error (PyErr.keyError "ghost") ∧
    fuse_datasets trivialOracle false c8A c8B none (some []) (some ["ghost"]) []
        true 42 none = Except.error (PyErr.keyError "ghost") :=
  ⟨(C9_first_reached_lookup_error trivialOracle false c8A c8B "ghost" [] [] true
      42 none).1 none (by decide) (by decide),
   (C9_first_reached_lookup_error trivialOracle false c8A c8B "ghost" [] [] true
      42 none).2 (by decide) (by decide)⟩

/-- C6: for an overlap column that is object- or categorical-dtyped on
either side, the aligner recodes the column on **both** sides to one shared
categorical dtype whose (ordered, `valLe`-sorted) vocabulary contains
exactly the values observed non-missing on either side — so a value seen on
only one side is a valid level, not an error, and no cell value is lost in
the recoding (both columns keep their cells verbatim).  A numeric overlap
column passes through both sides unchanged. -/
theorem C6_categorical_alignment (a b : DF) (columns : List String) (c : String)
    (sa sb : Series) (hnd : columns.Nodup) (hc : c ∈ columns)
    (hga : a.getSeries? c = some sa) (hgb : b.getSeries? c = some sb) :
    ((sa.dtype.isObjectOrCategorical || sb.dtype.isObjectOrCategorical) = true →
      (coerce_categorical_alignment a b columns).1.getSeries? c
          = some ⟨c, Dtype.cat (sharedCats sa sb), sa.values⟩ ∧
      (coerce_categorical_alignment a b columns).2.getSeries? c
          = some ⟨c, Dtype.cat (sharedCats sa sb), sb.values⟩ ∧
      (∀ v, v ∈ sharedCats sa sb ↔ some v ∈ sa.values ∨ some v ∈ sb.values) ∧
      (sharedCats sa sb).Sorted (fun x y => valLe x y = true)) ∧
    ((sa.dtype.isObjectOrCategorical || sb.dtype.isObjectOrCategorical) = false →
      (coerce_categorical_alignment a b columns).1.getSeries? c = some sa ∧
      (coerce_categorical_alignment a b columns).2.getSeries? c = some sb) := by
  obtain ⟨l1, l2, rfl⟩ := List.append_of_mem hc
  have hnd' := List.nodup_append.mp hnd
  have hnotl2 : c ∉ l2 := (List.nodup_cons.mp hnd'.2.1).1
  have hnotl1 : c ∉ l1 := fun hmem =>
    hnd'.2.2 hmem (List.mem_cons_self c l2)
  have hmemcats : ∀ v, v ∈ sharedCats sa sb ↔
      some v ∈ sa.values ∨ some v ∈ sb.values := by
    intro v
    unfold sharedCats
    rw [mem_sortLe, List.mem_dedup, List.mem_append, mem_dropnaVals, mem_dropnaVals]
  obtain ⟨hA1, hB1⟩ := coerce_getSeries?_not_mem l1 a b c hnotl1
  rw [coerce_append l1 (c :: l2) a b]
  rw [hga] at hA1
  rw [hgb] at hB1
  constructor
  · intro hdt
    rw [coerce_cons_cat hA1 hB1 hdt]
    obtain ⟨p1, p2⟩ := coerce_getSeries?_not_mem l2
      ((coerce_categorical_alignment a b l1).1.setCol c
        (sa.astypeCat (sharedCats sa sb)))
      ((coerce_categorical_alignment a b l1).2.setCol c
        (sb.astypeCat (sharedCats sa sb))) c hnotl2
    have hnamea : (sa.astypeCat (sharedCats sa sb)).name = c := by
      rw [astypeCat_name]; exact getSeries?_name hga
    have hnameb : (sb.astypeCat (sharedCats sa sb)).name = c := by
      rw [astypeCat_name]; exact getSeries?_name hgb
    have hvalsa : (sa.astypeCat (sharedCats sa sb)).values = sa.values :=
      astypeCat_values_id (fun v hv => (hmemcats v).mpr (Or.inl hv))
    have hvalsb : (sb.astypeCat (sharedCats sa sb)).values = sb.values :=
      astypeCat_values_id (fun v hv => (hmemcats v).mpr (Or.inr hv))
    refine ⟨?_, ?_, hmemcats,
      sorted_sortLe valLe valLe_total valLe_trans _⟩
    · rw [p1, getSeries?_setCol_self hnamea]
      have heta : sa.astypeCat (sharedCats sa sb) =
          ⟨(sa.astypeCat (sharedCats sa sb)).name,
           (sa.astypeCat (sharedCats sa sb)).dtype,
           (sa.astypeCat (sharedCats sa sb)).values⟩ := rfl
      rw [heta, hnamea, hvalsa]
      rfl
    · rw [p2, getSeries?_setCol_self hnameb]
      have heta : sb.astypeCat (sharedCats sa sb) =
          ⟨(sb.astypeCat (sharedCats sa sb)).name,
           (sb.astypeCat (sharedCats sa sb)).dtype,
           (sb.astypeCat (sharedCats sa sb)).values⟩ := rfl
      rw [heta, hnameb, hvalsb]
      rfl
  · intro hdt
    rw [coerce_cons_numeric hA1 hB1 hdt]
    obtain ⟨p1, p2⟩ := coerce_getSeries?_not_mem l2
      (coerce_categorical_alignment a b l1).1
      (coerce_categorical_alignment a b l1).2 c hnotl2
    exact ⟨p1.trans hA1, p2.trans hB1⟩

/-- The C6 witness columns: object-dtyped on side A with values `b`, `a`
and on side B with values `c`, `a`; one missing cell each. -/
def c6A : DF :=
  ⟨[⟨"g", Dtype.obj, [some (Val.vStr "b"), none, some (Val.vStr "a")]⟩], 3⟩

def c6B : DF :=
  ⟨[⟨"g", Dtype.obj, [some (Val.vStr "c"), some (Val.vStr "a"), none]⟩], 3⟩

/-- Witness for C6: both sides are recoded to the shared sorted vocabulary
`[a, b, c]` with their cell values kept verbatim. -/
theorem C6_categorical_alignment_witness :
    (coerce_categorical_alignment c6A c6B ["g"]).1.getSeries? "g"
        = some ⟨"g", Dtype.cat (sharedCats
            ⟨"g", Dtype.obj, [some (Val.vStr "b"), none, some (Val.vStr "a")]⟩
            ⟨"g", Dtype.obj, [some (Val.vStr "c"), some (Val.vStr "a"), none]⟩),
          [some (Val.vStr "b"), none, some (Val.vStr "a")]⟩ ∧
    (coerce_categorical_alignment c6A c6B ["g"]).2.getSeries? "g"
        = some ⟨"g", Dtype.cat (sharedCats
            ⟨"g", Dtype.obj, [some (Val.vStr "b"), none, some (Val.vStr "a")]⟩
            ⟨"g", Dtype.obj, [some (Val.vStr "c"), some (Val.vStr "a"), none]⟩),
          [some (Val.vStr "c"), some (Val.vStr "a"), none]⟩ := by
  have h := (C6_categorical_alignment c6A c6B ["g"] "g"
    ⟨"g", Dtype.obj, [some (Val.vStr "b"), none, some (Val.vStr "a")]⟩
    ⟨"g", Dtype.obj, [some (Val.vStr "c"), some (Val.vStr "a"), none]⟩
    (by decide) (by decide) (by decide) (by decide)).1 (by decide)
  exact ⟨h.1, h.2.1⟩

/-- Four-row dataset A of the C1 failing input, mirroring the repository's
own `test_basic_fusion_runs` scenario in miniature: shared `age`, exclusive
binary integer target `tA` — clean, non-degenerate data on which the claim
promises success. -/
def c1wA : DF :=
  ⟨[⟨"age", Dtype.int, [some (Val.vInt 1), some (Val.vInt 2), some (Val.vInt 1),
      some (Val.vInt 2)]⟩,
    ⟨"tA", Dtype.int, [some (Val.vInt 0), some (Val.vInt 1), some (Val.vInt 0),
      some (Val.vInt 1)]⟩], 4⟩

/-- Four-row dataset B of the C1 failing input: shared `age`, exclusive
float target `tB`. -/
def c1wB : DF :=
  ⟨[⟨"age", Dtype.int, [some (Val.vInt 2), some (Val.vInt 3), some (Val.vInt 2),
      some (Val.vInt 3)]⟩,
    ⟨"tB", Dtype.float, [some (Val.vInt 0), some (Val.vInt 1), some (Val.vInt 0),
      some (Val.vInt 1)]⟩], 4⟩

/-- C1: the claim says `fuse_datasets` succeeds on such inputs with a
`len(A)+len(B)`-row fused table — the repository's own test
`test_basic_fusion_runs` asserts the same.  It cannot: for **every** oracle
and backend availability the call fails with the `AttributeError` from the
undeclared `FusionConfig.n_jobs`.  With the sklearn baseline the first
target's training dies building the pipeline (modeling.py lines 102/108);
with PyCaret the training succeeds but `cross_validate_metrics` builds the
same sklearn pipeline for scoring (line 259) and dies there.  No fused
result is ever produced. -/
theorem C1_fuse_raises_AttributeError :
    ∀ (oracle : Oracle) (avail : Bool),
      fuse_datasets oracle avail c1wA c1wB none none none [] true 42 none
        = Except.error (PyErr.attributeError nJobsAttributeMsg) := by
  intro oracle avail
  cases avail <;> rfl

end StaFusion
